import Mathlib

/-!
Shallow embedding of the analysis scripts of the apple-silicon-bio-bench
repository, and proofs about their baseline-joining, reporting, regression
selection, CLI and log-parsing behaviour.

Conventions used throughout:
* Python floats are modelled as rationals (`ℚ`); where the source guards a
  division so that the divisor is provably nonzero, plain rational division
  is used.  Where the source divides *unguarded* with numpy float semantics
  (`analyze_composition.py`), values are modelled by `NF`, rationals extended
  with `inf`, `ninf` and `nan`, with numpy's arithmetic rules.
* Python `dict`s are modelled as association lists with insert-that-overwrites
  (`dictInsert`), which preserves key insertion order for iteration and makes
  `dictLookup` return the most recently assigned value, exactly as CPython.
* Fallible Python code (uncaught exceptions such as `ZeroDivisionError`)
  is modelled with `Except String`.

The file is laid out as: all definitions first, then all theorems.
-/

/-- One step of CPython dict assignment `d[k] = v`: if the key is present its
value is replaced in place (keeping the key's position), otherwise the pair is
appended at the end. -/
def dictInsert {κ ν : Type} [DecidableEq κ] : List (κ × ν) → κ → ν → List (κ × ν)
  | [], k, v => [(k, v)]
  | (k0, v0) :: rest, k, v =>
    if k0 = k then (k0, v) :: rest else (k0, v0) :: dictInsert rest k v

/-- CPython dict read `d[k]` / membership test `k in d`: the stored value for
`k`, if any.  Keys in a `dictInsert`-built list are unique, so the first match
is the binding. -/
def dictLookup {κ ν : Type} [DecidableEq κ] : List (κ × ν) → κ → Option ν
  | [], _ => none
  | (k0, v0) :: rest, k => if k0 = k then some v0 else dictLookup rest k

/-- The key list of an ordered string-keyed dict, in insertion order: models
CPython `d.keys()` as used for `csv.DictWriter(f, fieldnames=rows[0].keys())`. -/
def dictKeys {ν : Type} (r : List (String × ν)) : List String := r.map (·.1)

namespace Compare

/-! Embedding of `src/analysis/compare_mac_graviton.py`. -/

/-- One row of a platform CSV as consumed by `calculate_speedups` in
`compare_mac_graviton.py`.  `throughput` is `float(exp['throughput_seqs_per_sec'])`;
`speedup` is the `'speedup_vs_naive'` key, absent (`none`) until
`calculate_speedups` assigns it. -/
structure CmpExp where
  operation : String
  config : String
  scale : String
  num_sequences : String
  throughput : ℚ
  speedup : Option ℚ := none
  deriving DecidableEq, Repr

/-- The grouping key `(exp['operation'], exp['scale'])`. -/
def cmpKey (e : CmpExp) : String × String := (e.operation, e.scale)

/-- The first loop of `calculate_speedups` (lines 41-44): build the
`naive_throughput` dict, one `d[key] = float(...)` assignment per record whose
`config` is `'naive'`. -/
def naiveDict (exps : List CmpExp) : List ((String × String) × ℚ) :=
  exps.foldl
    (fun d e => if e.config = "naive" then dictInsert d (cmpKey e) e.throughput else d) []

/-- The second loop of `calculate_speedups` (lines 47-54): for each record,
if its key is in `naive_throughput` set
`speedup_vs_naive = current / naive if naive > 0 else 0.0`,
otherwise set `speedup_vs_naive = 1.0` (no baseline found; no warning is
printed by the source here). -/
def calculateSpeedups (exps : List CmpExp) : List CmpExp :=
  let d := naiveDict exps
  exps.map fun e =>
    match dictLookup d (cmpKey e) with
    | some b => { e with speedup := some (if 0 < b then e.throughput / b else 0) }
    | none => { e with speedup := some 1 }

/-- Specification-side description of which record's throughput ends up as the
group baseline: the LAST record with `config = 'naive'` and the given key, in
input order (each later dict assignment overwrites the earlier one). -/
def lastNaiveBaseline (exps : List CmpExp) (k : String × String) : Option ℚ :=
  ((exps.filter fun e => e.config == "naive" && cmpKey e == k).getLast?).map (·.throughput)

/-- A value in one of the output dicts built by `compare_platforms`: the
source mixes strings and floats. -/
inductive CValue where
  | s (v : String)
  | q (v : ℚ)
  deriving DecidableEq, Repr

/-- `compare_platforms` (lines 58-110): run `calculate_speedups` on both
platforms, build `mac_lookup` keyed by `(operation, config, scale)` (dict, so
the last Mac record with a key wins), then for each Graviton record joined to a
Mac record emit the comparison dict literal of lines 87-108, with the source's
zero-baseline guards. -/
def comparePlatforms (mac grav : List CmpExp) : List (List (String × CValue)) :=
  let macS := calculateSpeedups mac
  let gravS := calculateSpeedups grav
  let macLookup := macS.foldl (fun d e => dictInsert d (e.operation, e.config, e.scale) e) []
  gravS.filterMap fun g =>
    match dictLookup macLookup (g.operation, g.config, g.scale) with
    | none => none
    | some m =>
      let macSpeedup := m.speedup.getD 0
      let gravSpeedup := g.speedup.getD 0
      some [("operation", CValue.s g.operation),
            ("config", CValue.s g.config),
            ("scale", CValue.s g.scale),
            ("num_sequences", CValue.s g.num_sequences),
            ("mac_throughput", CValue.q m.throughput),
            ("mac_speedup", CValue.q macSpeedup),
            ("graviton_throughput", CValue.q g.throughput),
            ("graviton_speedup", CValue.q gravSpeedup),
            ("portability_ratio",
              CValue.q (if 0 < macSpeedup then gravSpeedup / macSpeedup else 0)),
            ("speedup_variance_pct",
              CValue.q (if 0 < macSpeedup then (gravSpeedup - macSpeedup) / macSpeedup * 100 else 0)),
            ("graviton_vs_mac_throughput",
              CValue.q (if 0 < m.throughput then g.throughput / m.throughput else 0))]

/-- The key insertion order of the dict literal of lines 87-108, hence the
column order of every comparison row. -/
def comparisonFieldnames : List String :=
  ["operation", "config", "scale", "num_sequences",
   "mac_throughput", "mac_speedup", "graviton_throughput", "graviton_speedup",
   "portability_ratio", "speedup_variance_pct", "graviton_vs_mac_throughput"]

/-- The column order that `write_comparison` (lines 112-123) actually emits:
`fieldnames = comparison[0].keys()`, i.e. the key insertion order of the first
comparison dict.  Returns `none` when there is nothing to write (the source
prints a message and writes no file). -/
def writeComparison (comparison : List (List (String × CValue))) :
    Option (List String × List (List (String × CValue))) :=
  match comparison with
  | [] => none
  | c0 :: _ => some (dictKeys c0, comparison)

end Compare

namespace Compose

/-! Embedding of `src/analyze_composition.py` (`load_data` and
`calculate_speedups`); numpy float semantics are needed because its divisions
are unguarded. -/

/-- A numpy double, as far as the embedded computations can observe it:
a finite rational, one of the two infinities, or NaN. -/
inductive NF where
  | fin (q : ℚ)
  | inf
  | ninf
  | nan
  deriving DecidableEq, Repr

/-- numpy float64 division, including division by zero: `x / 0` is `inf`,
`ninf` or `nan` according to the sign of `x` (a warning, not an exception). -/
def nfdiv : NF → NF → NF
  | NF.nan, _ => NF.nan
  | _, NF.nan => NF.nan
  | NF.fin a, NF.fin b =>
    if b = 0 then (if 0 < a then NF.inf else if a < 0 then NF.ninf else NF.nan)
    else NF.fin (a / b)
  | NF.fin _, NF.inf => NF.fin 0
  | NF.fin _, NF.ninf => NF.fin 0
  | NF.inf, NF.fin b => if 0 ≤ b then NF.inf else NF.ninf
  | NF.ninf, NF.fin b => if 0 ≤ b then NF.ninf else NF.inf
  | NF.inf, NF.inf => NF.nan
  | NF.inf, NF.ninf => NF.nan
  | NF.ninf, NF.inf => NF.nan
  | NF.ninf, NF.ninf => NF.nan

/-- numpy float64 multiplication (`inf * 0` is NaN). -/
def nfmul : NF → NF → NF
  | NF.nan, _ => NF.nan
  | _, NF.nan => NF.nan
  | NF.fin a, NF.fin b => NF.fin (a * b)
  | NF.fin a, NF.inf => if 0 < a then NF.inf else if a < 0 then NF.ninf else NF.nan
  | NF.fin a, NF.ninf => if 0 < a then NF.ninf else if a < 0 then NF.inf else NF.nan
  | NF.inf, NF.fin b => if 0 < b then NF.inf else if b < 0 then NF.ninf else NF.nan
  | NF.ninf, NF.fin b => if 0 < b then NF.ninf else if b < 0 then NF.inf else NF.nan
  | NF.inf, NF.inf => NF.inf
  | NF.inf, NF.ninf => NF.ninf
  | NF.ninf, NF.inf => NF.ninf
  | NF.ninf, NF.ninf => NF.inf

/-- numpy float64 subtraction (`inf - inf` is NaN). -/
def nfsub : NF → NF → NF
  | NF.nan, _ => NF.nan
  | _, NF.nan => NF.nan
  | NF.fin a, NF.fin b => NF.fin (a - b)
  | NF.inf, NF.fin _ => NF.inf
  | NF.ninf, NF.fin _ => NF.ninf
  | NF.fin _, NF.inf => NF.ninf
  | NF.fin _, NF.ninf => NF.inf
  | NF.inf, NF.inf => NF.nan
  | NF.ninf, NF.ninf => NF.nan
  | NF.inf, NF.ninf => NF.inf
  | NF.ninf, NF.inf => NF.ninf

/-- numpy `abs`. -/
def nfabs : NF → NF
  | NF.fin a => NF.fin |a|
  | NF.inf => NF.inf
  | NF.ninf => NF.inf
  | NF.nan => NF.nan

/-- The Python comparison `x > 0` on a float (`nan > 0` is `False`,
`inf > 0` is `True`). -/
def nfPos : NF → Bool
  | NF.fin a => decide (0 < a)
  | NF.inf => true
  | NF.ninf => false
  | NF.nan => false

/-- One data row of the composition CSV, with the columns `calculate_speedups`
reads (throughput and complexity are numpy floats read by pandas; the inputs
themselves are finite, so they are plain rationals here). -/
structure CompRow where
  operation : String
  scale : String
  backend : String
  throughput : ℚ
  complexity : ℚ
  num_sequences : ℤ
  deriving DecidableEq, Repr

/-- One result dict appended by `calculate_speedups` (lines 77-89 of
`analyze_composition.py`). -/
structure CompResult where
  operation : String
  complexity : ℚ
  scale : String
  num_sequences : ℤ
  speedupNeon : NF
  expectedParallel : ℚ
  observedParallel : NF
  speedupNeonParallel : NF
  predictedCombined : NF
  compositionRatio : NF
  errorPct : NF
  deriving DecidableEq, Repr

/-- The inner helper `expected_parallel_speedup` (lines 35-41). -/
def expectedParallelSpeedup (complexity : ℚ) : ℚ :=
  if complexity < 3/10 then 2
  else if complexity < 45/100 then 7/2
  else 5

/-- `df[['operation', 'scale']].drop_duplicates().values` (line 43): the
distinct (operation, scale) pairs in first-occurrence order. -/
def distinctPairs (rows : List CompRow) : List (String × String) :=
  rows.foldl
    (fun acc r =>
      if acc.contains (r.operation, r.scale) then acc else acc ++ [(r.operation, r.scale)]) []

/-- The first row of the given backend within the (operation, scale) subset:
`subset[subset.backend == b]['throughput_seqs_per_sec'].values[0]` reads the
head of this filtered list (lines 47-49). -/
def firstBackendRow (rows : List CompRow) (op scale backend : String) : Option CompRow :=
  ((rows.filter fun r => r.operation == op && r.scale == scale).filter
    fun r => r.backend == backend).head?

/-- The loop body of `calculate_speedups` (lines 44-89) for one
(operation, scale) pair: take the subset, read the first row of each of the
three backends, skip the pair (`continue`) when any backend is missing,
otherwise compute the speedups with numpy float arithmetic.
`composition_ratio` is the only guarded ratio
(`actual / predicted if predicted > 0 else 0`); `speedup_neon`,
`speedup_neon_parallel` and `observed_parallel` divide unguarded. -/
def compRowFor (rows : List CompRow) (op scale : String) : Option CompResult :=
  let subset := rows.filter fun r => r.operation == op && r.scale == scale
  match firstBackendRow rows op scale "naive",
        firstBackendRow rows op scale "neon",
        firstBackendRow rows op scale "neon_parallel",
        subset.head? with
  | some nv, some ne, some np, some s0 =>
    let speedupNeon := nfdiv (NF.fin ne.throughput) (NF.fin nv.throughput)
    let expected := expectedParallelSpeedup s0.complexity
    let speedupNeonParallel := nfdiv (NF.fin np.throughput) (NF.fin nv.throughput)
    let observedParallel := nfdiv (NF.fin np.throughput) (NF.fin ne.throughput)
    let predicted := nfmul speedupNeon (NF.fin expected)
    let ratio := if nfPos predicted then nfdiv speedupNeonParallel predicted else NF.fin 0
    some { operation := op, complexity := s0.complexity, scale := scale,
           num_sequences := s0.num_sequences,
           speedupNeon := speedupNeon,
           expectedParallel := expected,
           observedParallel := observedParallel,
           speedupNeonParallel := speedupNeonParallel,
           predictedCombined := predicted,
           compositionRatio := ratio,
           errorPct := nfmul (nfabs (nfsub ratio (NF.fin 1))) (NF.fin 100) }
  | _, _, _, _ => none

/-- `calculate_speedups` of `analyze_composition.py` (lines 22-91): iterate the
distinct (operation, scale) pairs and collect one result row per complete
group, silently skipping incomplete groups. -/
def calculateSpeedups (rows : List CompRow) : List CompResult :=
  (distinctPairs rows).filterMap fun p => compRowFor rows p.1 p.2

end Compose

namespace LoadComp

/-! Embedding of `load_data` of `analyze_composition.py` (lines 16-20):
`pd.read_csv(csv_path, comment='[')` followed by dropping rows whose
`operation` is NaN.  A file is a list of lines; a line is a list of
characters. -/

/-- pandas comment handling for `comment='['`: the line is truncated at the
first occurrence of the marker (a line *beginning* with it becomes empty and
is then skipped entirely, like a blank line). -/
def stripComment (line : List Char) : List Char := line.takeWhile (· ≠ '[')

/-- Split one CSV line into its comma-separated fields. -/
def splitFields (line : List Char) : List (List Char) := line.splitOn ','

/-- The CSV column name the loader filters on. -/
def opCol : List Char := ['o', 'p', 'e', 'r', 'a', 't', 'i', 'o', 'n']

/-- First-match lookup of a field value in a parsed row. -/
def fieldGet : List (List Char × List Char) → List Char → Option (List Char)
  | [], _ => none
  | (k0, v0) :: rest, k => if k0 = k then some v0 else fieldGet rest k

/-- The comment-stripping and blank-skipping phase of the read: what remains
of the file once every line is truncated at the marker and lines that end up
blank are dropped. -/
def cleanLines (lines : List (List Char)) : List (List Char) :=
  (lines.map stripComment).filter fun l => !l.isEmpty

/-- `load_data`: strip comments, drop lines that end up blank, parse the first
remaining line as the header, zip every later line against the header (pandas
fills missing trailing fields with NaN, modelled as the empty field, and
raises `ParserError` on rows with too many fields), then keep only rows whose
`operation` field is non-NaN (`df[df['operation'].notna()]`, which raises
`KeyError` when the column is absent).  An input with no data at all raises
`EmptyDataError`. -/
def loadData (lines : List (List Char)) :
    Except String (List (List (List Char × List Char))) :=
  match cleanLines lines with
  | [] => Except.error "EmptyDataError: No columns to parse from file"
  | header :: rest =>
    let cols := splitFields header
    if !cols.contains opCol then Except.error "KeyError: operation"
    else do
      let rows ← rest.mapM fun l =>
        let fs := splitFields l
        if cols.length < fs.length then
          Except.error "ParserError: too many fields"
        else
          Except.ok (cols.zip (fs ++ List.replicate (cols.length - fs.length) []))
      pure (rows.filter fun r => !((fieldGet r opCol).getD []).isEmpty)

end LoadComp

namespace Power

/-! Embedding of `src/analysis/parse_powermetrics.py`. -/

/-- One enriched experiment record as consumed by `calculate_energy_efficiency`
(the output of `correlate_power_with_experiments`), restricted to the fields
that function reads. -/
structure PExp where
  operation : String
  config : String
  scale : String
  loop_duration_s : ℚ
  iterations : ℤ
  energy_per_seq_uwh : ℚ
  deriving DecidableEq, Repr

/-- An experiment record after `calculate_energy_efficiency`: the three
derived keys are present (`some`) only when the record's group had a naive
baseline (records of baseline-less groups are appended unchanged). -/
structure PExpOut where
  exp : PExp
  time_speedup : Option ℚ := none
  energy_speedup : Option ℚ := none
  energy_efficiency : Option ℚ := none
  deriving DecidableEq, Repr

/-- The grouping key `(exp['operation'], exp['scale'])` (line 158). -/
def pKey (e : PExp) : String × String := (e.operation, e.scale)

/-- The grouping loop (lines 156-161): a dict from key to the list of records
with that key, keys in first-appearance order, records in input order. -/
def pGroups (exps : List PExp) : List ((String × String) × List PExp) :=
  exps.foldl
    (fun d e =>
      match dictLookup d (pKey e) with
      | some l => dictInsert d (pKey e) (l ++ [e])
      | none => dictInsert d (pKey e) [e]) []

/-- The body of the inner loop (lines 178-194) for one record, given the
baseline time-per-iteration and energy of the group's chosen naive record. -/
def processOne (naiveTime naiveEnergy : ℚ) (e : PExp) : Except String PExpOut :=
  if e.iterations = 0 then Except.error "ZeroDivisionError: division by zero"
  else
    let expTime := e.loop_duration_s / (e.iterations : ℚ)
    let expEnergy := e.energy_per_seq_uwh
    if e.config == "naive" then
      Except.ok { exp := e, time_speedup := some 1, energy_speedup := some 1,
                  energy_efficiency := some 1 }
    else
      let ts := if 0 < expTime then naiveTime / expTime else 0
      let es := if 0 < expEnergy then naiveEnergy / expEnergy else 0
      let ee := if 0 < es then ts / es else 0
      Except.ok { exp := e, time_speedup := some ts, energy_speedup := some es,
                  energy_efficiency := some ee }

/-- The inner `for exp in exps` loop of lines 177-194, appending one processed
record at a time and propagating the first raised error. -/
def processExps (naiveTime naiveEnergy : ℚ) : List PExp → Except String (List PExpOut)
  | [] => Except.ok []
  | e :: rest =>
    match processOne naiveTime naiveEnergy e with
    | Except.error msg => Except.error msg
    | Except.ok r =>
      match processExps naiveTime naiveEnergy rest with
      | Except.error msg => Except.error msg
      | Except.ok rs => Except.ok (r :: rs)

/-- The per-group body of `calculate_energy_efficiency` (lines 165-194):
`next((e for e in exps if e['config'] == 'naive'), None)` picks the FIRST
naive record; without one, the records are appended without the derived keys
(after a printed warning).  With one, every record gets
`time_speedup = naive_time / exp_time if exp_time > 0 else 0.0` (and the
energy analogues), except that records whose own config is `'naive'` are
assigned exactly 1.0 for all three.  Division through `iterations = 0` is a
`ZeroDivisionError`. -/
def processGroup (exps : List PExp) : Except String (List PExpOut) :=
  match exps.find? (fun e => e.config == "naive") with
  | none => Except.ok (exps.map fun e => { exp := e })
  | some naive =>
    if naive.iterations = 0 then Except.error "ZeroDivisionError: division by zero"
    else
      processExps (naive.loop_duration_s / (naive.iterations : ℚ))
        naive.energy_per_seq_uwh exps

/-- The outer `for (operation, scale), exps in groups.items()` loop (lines
165-194): process each group in dict iteration order, extending the result
list, and propagate the first raised error. -/
def processGroups : List ((String × String) × List PExp) → Except String (List PExpOut)
  | [] => Except.ok []
  | g :: rest =>
    match processGroup g.2 with
    | Except.error msg => Except.error msg
    | Except.ok r =>
      match processGroups rest with
      | Except.error msg => Except.error msg
      | Except.ok rs => Except.ok (r ++ rs)

/-- `calculate_energy_efficiency` (lines 145-196): group, then process the
groups. -/
def calculateEnergyEfficiency (exps : List PExp) : Except String (List PExpOut) :=
  processGroups (pGroups exps)

/-- Specification-side description of the baseline choice: the FIRST record of
the group whose config is `'naive'`. -/
def firstNaive (exps : List PExp) : Option PExp :=
  (exps.filter fun e => e.config == "naive").head?

/-- What the two regex matches of `parse_powermetrics_log` can see on one
line: `ts = none` when the timestamp pattern does not match, `some none` when
it matches but both `strptime` attempts fail, `some (some t)` when it parses
to the instant `t`; `power` is the matched milliwatt integer, when the power
pattern matches. -/
structure PMLine where
  ts : Option (Option ℤ)
  power : Option ℕ
  deriving DecidableEq, Repr

/-- One emitted power sample (timestamps as instants, power as
`float(match.group(1))`). -/
structure Sample where
  timestamp : ℤ
  cpu_power_mw : ℚ
  deriving DecidableEq, Repr

/-- One iteration of the parse loop (lines 39-65): an unparseable timestamp
line `continue`s (skipping the power check on that line); a parsed timestamp
updates `current_timestamp` before the power check; a power line emits a
sample only when `current_timestamp` is set. -/
def pmStep (cur : Option ℤ) (l : PMLine) : Option ℤ × Option Sample :=
  match l.ts with
  | some none => (cur, none)
  | some (some t) =>
    (some t,
      match l.power with
      | some p => some ⟨t, (p : ℚ)⟩
      | none => none)
  | none =>
    (cur,
      match l.power, cur with
      | some p, some t => some ⟨t, (p : ℚ)⟩
      | _, _ => none)

/-- The fold of `pmStep` over the file from an arbitrary starting
`current_timestamp`, accumulating the emitted samples in order. -/
def pmParseFrom (cur : Option ℤ) (lines : List PMLine) : List Sample :=
  (lines.foldl
    (fun st l =>
      let s := pmStep st.1 l
      (s.1, st.2 ++ s.2.toList))
    (cur, ([] : List Sample))).2

/-- `parse_powermetrics_log` (lines 27-68): the loop starts with
`current_timestamp = None`. -/
def parsePowermetricsLog (lines : List PMLine) : List Sample :=
  pmParseFrom none lines

/-- The parseable timestamp in force just after line `i`: the last line at or
before index `i` that announced a parseable timestamp (starting from `cur`). -/
def lastParsedTs (cur : Option ℤ) (lines : List PMLine) (i : ℕ) : Option ℤ :=
  (lines.take (i + 1)).foldl
    (fun acc l =>
      match l.ts with
      | some (some t) => some t
      | _ => acc) cur

/-- Declarative description of the parser's output, following the claimed
behaviour: each power line (not itself an unparseable-timestamp line, which the
loop skips) yields a sample exactly when some line at or before it carries a
parseable timestamp, and the sample's timestamp is the most recent such one. -/
def pmSpecFrom (cur : Option ℤ) (lines : List PMLine) : List Sample :=
  (List.range lines.length).filterMap fun i =>
    match (lines.getD i ⟨none, none⟩).ts, (lines.getD i ⟨none, none⟩).power,
          lastParsedTs cur lines i with
    | some none, _, _ => none
    | _, some p, some t => some ⟨t, (p : ℚ)⟩
    | _, _, _ => none

/-- The explicit field order of `save_enriched_csv` (lines 205-211). -/
def saveEnrichedFieldnames : List String :=
  ["operation", "config", "scale", "num_sequences", "loop_duration_s", "iterations",
   "sequences_processed", "throughput_seqs_per_sec",
   "cpu_power_mw", "cpu_power_w", "energy_wh", "energy_per_seq_uwh",
   "time_speedup_vs_naive", "energy_speedup_vs_naive", "energy_efficiency",
   "power_samples_count", "timestamp"]

/-- `save_enriched_csv` (lines 198-223): nothing is written for an empty
record list; otherwise the header is the fixed explicit field list, whatever
the records are. -/
def saveEnrichedCsv (experiments : List PExpOut) :
    Option (List String × List PExpOut) :=
  match experiments with
  | [] => none
  | _ => some (saveEnrichedFieldnames, experiments)

end Power

namespace Regression

/-! Embedding of the model-selection logic of
`src/analysis/complexity_regression.py` (`build_models`). -/

/-- The scores the source stores and prints for one fitted model: the training
R² (`r2_score` on the training data, stored as `models[name][2]`), the mean
absolute error, and the mean 5-fold cross-validated R² (printed only). -/
structure ModelScores where
  r2 : ℚ
  mae : ℚ
  cv : ℚ
  deriving DecidableEq, Repr

/-- The `models` dict of `build_models` in its insertion order (lines 165, 185,
202, 219): linear, polynomial, random forest, gradient boosting. -/
def buildModelsScores (lin poly rf gb : ModelScores) : List (String × ModelScores) :=
  [("linear", lin), ("polynomial", poly), ("random_forest", rf), ("gradient_boosting", gb)]

/-- Python `max(iterable, key=f)`: the FIRST element attaining the maximal key
(later elements replace the current best only when strictly greater). -/
def pyMaxByKey {α : Type} (key : α → ℚ) (l : List α) : Option α :=
  l.foldl
    (fun best x =>
      match best with
      | none => some x
      | some b => if key b < key x then some x else some b) none

/-- Line 233: `best_model_name = max(models, key=lambda k: models[k][2])` —
the model with the highest stored index-2 score, which is the TRAINING R². -/
def bestModelName (models : List (String × ModelScores)) : Option String :=
  (pyMaxByKey (fun p => p.2.r2) models).map (·.1)

/-- The straight-line control flow of `build_models` (lines 131-236): the four
model blocks run in a fixed order with no exception handler, each block
standing for an opaque fit/score/cross-validate call into the external library
that either returns a score or raises.  The blocks are thunks so that what a
failing run never executes is visible. -/
def buildModelsRun (e1 e2 e3 e4 : Unit → Except String ℚ) :
    Except String (List (String × ℚ)) := do
  let r1 ← e1 ()
  let r2 ← e2 ()
  let r3 ← e3 ()
  let r4 ← e4 ()
  pure [("linear", r1), ("polynomial", r2), ("random_forest", r3), ("gradient_boosting", r4)]

end Regression

namespace Extract

/-! Embedding of `src/analysis/extract_mac_baseline.py`. -/

/-- A CSV row as `csv.DictReader` yields it: an ordered dict whose key order
is the column order of the INPUT file's header. -/
def Row : Type := List (String × String)

/-- First-match lookup `row[k]`. -/
def rowGet : List (String × String) → String → Option String
  | [], _ => none
  | (k0, v0) :: rest, k => if k0 = k then some v0 else rowGet rest k

/-- The operations kept (lines 26-30). -/
def targetOperations : List String := ["base_counting", "gc_content", "quality_aggregation"]

/-- The configs kept (lines 33-37). -/
def targetConfigs : List String := ["naive", "neon", "neon_4t"]

/-- The scales kept (line 41). -/
def targetScales : List String := ["Medium", "Large"]

/-- The filter of lines 48-50 (a row whose required column is missing would
raise `KeyError` in the source; such rows are outside the claims considered
and simply do not match here). -/
def matchesTargets (r : Row) : Bool :=
  (match rowGet r "operation" with
   | some v => targetOperations.contains v
   | none => false) &&
  (match rowGet r "config" with
   | some v => targetConfigs.contains v
   | none => false) &&
  (match rowGet r "scale" with
   | some v => targetScales.contains v
   | none => false)

/-- `extract_mac_baseline` (lines 22-63): filter the rows, and when any
survive, write a CSV whose header is `baseline[0].keys()` — the key order of
the FIRST surviving row, which is the input file's column order.  Nothing is
written when no row matches. -/
def extractMacBaseline (rows : List Row) : Option (List String × List Row) :=
  let baseline := rows.filter matchesTargets
  match baseline with
  | [] => none
  | b0 :: _ => some (dictKeys b0, baseline)

end Extract

namespace CLI

/-! Embeddings of the `main` entry points relevant to the CLI claims.  The
outcome records the process exit code, whether an output file was produced,
and the diagnostic printed (usage line, error line, or the exception type of
an uncaught traceback). -/

structure MainOutcome where
  exitCode : ℕ
  wroteOutput : Bool
  message : Option String
  deriving DecidableEq, Repr

/-- `main` of `compare_mac_graviton.py` (lines 153-182): demands exactly two
positional arguments (`len(sys.argv) != 3`), checks both files exist, then
compares and writes the comparison CSV (which `write_comparison` skips when
the comparison is empty).  File contents are supplied as already-loaded
records. -/
def compareMain (argv : List String) (fileExists : String → Bool)
    (mac grav : List Compare.CmpExp) : MainOutcome :=
  if argv.length ≠ 3 then
    ⟨1, false, some "Usage: python compare_mac_graviton.py <mac_baseline_csv> <graviton_raw_csv>"⟩
  else if !(fileExists ((argv.get? 1).getD "")) then
    ⟨1, false, some "Error: Mac baseline not found"⟩
  else if !(fileExists ((argv.get? 2).getD "")) then
    ⟨1, false, some "Error: Graviton data not found"⟩
  else
    let comparison := Compare.comparePlatforms mac grav
    ⟨0, !comparison.isEmpty, none⟩

/-- `main` of `parse_powermetrics.py` (lines 225-261): demands exactly two
positional arguments, checks both files exist, then parses, correlates,
computes efficiency (which can raise `ZeroDivisionError`) and saves the
enriched CSV (skipped when there are no experiments).  The enriched experiment
list stands for the loaded and correlated pilot CSV. -/
def parsePowermetricsMain (argv : List String) (fileExists : String → Bool)
    (experiments : List Power.PExp) : MainOutcome :=
  if argv.length ≠ 3 then
    ⟨1, false, some "Usage: python parse_powermetrics.py <powermetrics_log> <pilot_csv>"⟩
  else if !(fileExists ((argv.get? 1).getD "")) then
    ⟨1, false, some "Error: powermetrics log not found"⟩
  else if !(fileExists ((argv.get? 2).getD "")) then
    ⟨1, false, some "Error: pilot CSV not found"⟩
  else
    match Power.calculateEnergyEfficiency experiments with
    | Except.error m => ⟨1, false, some m⟩
    | Except.ok out => ⟨0, !out.isEmpty, none⟩

/-- `main` of `analyze_composition.py` (lines 93-256): rejects only
`len(sys.argv) < 2` — EXTRA positional arguments are silently ignored.  There
is no existence check: a missing input aborts with an uncaught
`FileNotFoundError` from `pd.read_csv`.  When the analysis yields no rows, the
accuracy percentages divide by `len(speedups) = 0` (uncaught
`ZeroDivisionError`) before any output is written; otherwise the analysis CSV
is written and the process exits 0.  The parsed rows stand for the input
file's contents. -/
def compositionMain (argv : List String) (fileExists : String → Bool)
    (rows : List Compose.CompRow) : MainOutcome :=
  if argv.length < 2 then
    ⟨1, false, some "Usage: python3 analyze_composition.py <csv_file>"⟩
  else if !(fileExists ((argv.get? 1).getD "")) then
    ⟨1, false, some "FileNotFoundError"⟩
  else
    let speedups := Compose.calculateSpeedups rows
    if speedups.isEmpty then ⟨1, false, some "ZeroDivisionError"⟩
    else ⟨0, true, none⟩

end CLI

/-! ## Theorems -/

theorem dictLookup_dictInsert {κ ν : Type} [DecidableEq κ]
    (d : List (κ × ν)) (k k2 : κ) (v : ν) :
    dictLookup (dictInsert d k v) k2 = if k = k2 then some v else dictLookup d k2 := by
  induction d with
  | nil => simp [dictInsert, dictLookup]
  | cons p rest ih =>
    obtain ⟨k0, v0⟩ := p
    by_cases h0 : k0 = k
    · subst h0
      by_cases h2 : k0 = k2 <;> simp [dictInsert, dictLookup, h2]
    · by_cases h2 : k0 = k2
      · subst h2
        have : ¬ k = k0 := fun h => h0 h.symm
        simp [dictInsert, dictLookup, h0, this]
      · simp [dictInsert, dictLookup, h0, h2, ih]

namespace Compare

theorem naiveDict_append (l : List CmpExp) (e : CmpExp) :
    naiveDict (l ++ [e]) =
      if e.config = "naive" then dictInsert (naiveDict l) (cmpKey e) e.throughput
      else naiveDict l := by
  by_cases h : e.config = "naive" <;> simp [naiveDict, List.foldl_append, h]

theorem lastNaiveBaseline_append (l : List CmpExp) (e : CmpExp) (k : String × String) :
    lastNaiveBaseline (l ++ [e]) k =
      if e.config = "naive" ∧ cmpKey e = k then some e.throughput
      else lastNaiveBaseline l k := by
  by_cases h1 : e.config = "naive"
  · by_cases h2 : cmpKey e = k
    · simp [lastNaiveBaseline, List.filter_append, h1, h2]
    · simp [lastNaiveBaseline, List.filter_append, h1, h2]
  · simp [lastNaiveBaseline, List.filter_append, h1]

/-- The dict built by the first loop of `calculate_speedups` maps each group
key to the throughput of the last naive record with that key. -/
theorem naiveDict_eq_last (exps : List CmpExp) (k : String × String) :
    dictLookup (naiveDict exps) k = lastNaiveBaseline exps k := by
  induction exps using List.reverseRecOn with
  | nil => simp [naiveDict, lastNaiveBaseline, dictLookup]
  | append_singleton l e ih =>
    rw [naiveDict_append, lastNaiveBaseline_append]
    by_cases h1 : e.config = "naive"
    · by_cases h2 : cmpKey e = k
      · simp [h1, h2, dictLookup_dictInsert]
      · simp [h1, h2, dictLookup_dictInsert, ih]
    · simp [h1, ih]

example :
    calculateSpeedups
      [⟨"A", "naive", "S", "10", 100, none⟩, ⟨"A", "fast", "S", "10", 400, none⟩] =
      [⟨"A", "naive", "S", "10", 100, some 1⟩, ⟨"A", "fast", "S", "10", 400, some 4⟩] := by
  norm_num [calculateSpeedups, naiveDict, dictInsert, dictLookup, cmpKey]

end Compare

theorem find_eq_filter_head {α : Type} (p : α → Bool) (l : List α) :
    l.find? p = (l.filter p).head? := by
  induction l with
  | nil => simp
  | cons a rest ih =>
    by_cases h : p a = true
    · rw [List.find?_cons_of_pos _ h, List.filter_cons, if_pos h]
      rfl
    · rw [List.find?_cons_of_neg _ h, List.filter_cons, if_neg h, ih]

namespace LoadComp

theorem stripComment_of_head (l : List Char) (h : l.head? = some '[') :
    stripComment l = [] := by
  cases l with
  | nil => simp at h
  | cons c rest =>
    simp only [List.head?] at h
    have hc : c = '[' := by simpa using h
    simp [stripComment, List.takeWhile, hc]

theorem cleanLines_cons (l : List Char) (ls : List (List Char)) :
    cleanLines (l :: ls) =
      if (stripComment l).isEmpty then cleanLines ls
      else stripComment l :: cleanLines ls := by
  by_cases he : (stripComment l).isEmpty <;> simp [cleanLines, he]

theorem cleanLines_filter (lines : List (List Char)) :
    cleanLines lines = cleanLines (lines.filter fun l => !(l.head? == some '[')) := by
  induction lines with
  | nil => rfl
  | cons l ls ih =>
    rw [List.filter_cons]
    by_cases h : l.head? = some '['
    · have hp : (!(l.head? == some '[')) = false := by simp [h]
      have hs : stripComment l = [] := stripComment_of_head l h
      rw [hp, if_neg (by simp), cleanLines_cons, hs]
      simpa using ih
    · have hp : (!(l.head? == some '[')) = true := by simp [h]
      rw [hp, if_pos rfl, cleanLines_cons, cleanLines_cons, ih]

end LoadComp

/-- Claim C9: lines beginning with the comment sentinel `'['` are transparent
to `load_data`: removing them from the input changes neither the records
loaded nor whether the load errs — so such a line never appears as a record
and never causes a load error. -/
theorem claim_C9 (lines : List (List Char)) :
    LoadComp.loadData lines =
      LoadComp.loadData (lines.filter fun l => !(l.head? == some '[')) := by
  unfold LoadComp.loadData
  rw [← LoadComp.cleanLines_filter]

namespace Power

theorem pmStep_fst (cur : Option ℤ) (l : PMLine) :
    (pmStep cur l).1 =
      match l.ts with
      | some (some t) => some t
      | _ => cur := by
  obtain ⟨ts, p⟩ := l
  rcases ts with _ | o
  · rfl
  · rcases o with _ | t <;> rfl

theorem pmFold_snd (ls : List PMLine) (st : Option ℤ) (acc : List Sample) :
    (ls.foldl
      (fun st2 l =>
        let s := pmStep st2.1 l
        (s.1, st2.2 ++ s.2.toList))
      (st, acc)).2 = acc ++ pmParseFrom st ls := by
  induction ls generalizing st acc with
  | nil => simp [pmParseFrom]
  | cons l ls2 ih =>
    rw [List.foldl_cons]
    show (ls2.foldl _ ((pmStep st l).1, acc ++ (pmStep st l).2.toList)).2 = _
    rw [ih]
    have h2 : pmParseFrom st (l :: ls2) =
        (pmStep st l).2.toList ++ pmParseFrom (pmStep st l).1 ls2 := by
      show (ls2.foldl _ ((pmStep st l).1, ([] : List Sample) ++ (pmStep st l).2.toList)).2 = _
      rw [ih]
      simp
    rw [h2, List.append_assoc]

theorem pmParseFrom_cons (cur : Option ℤ) (l : PMLine) (ls : List PMLine) :
    pmParseFrom cur (l :: ls) =
      (pmStep cur l).2.toList ++ pmParseFrom (pmStep cur l).1 ls := by
  show (ls.foldl _ ((pmStep cur l).1, ([] : List Sample) ++ (pmStep cur l).2.toList)).2 = _
  rw [pmFold_snd]
  simp

theorem lastParsedTs_zero (cur : Option ℤ) (l : PMLine) (ls : List PMLine) :
    lastParsedTs cur (l :: ls) 0 = (pmStep cur l).1 := by
  rw [pmStep_fst]
  rfl

theorem lastParsedTs_succ (cur : Option ℤ) (l : PMLine) (ls : List PMLine) (i : ℕ) :
    lastParsedTs cur (l :: ls) (i + 1) = lastParsedTs (pmStep cur l).1 ls i := by
  rw [pmStep_fst]
  rfl

theorem pmSpecFrom_cons (cur : Option ℤ) (l : PMLine) (ls : List PMLine) :
    pmSpecFrom cur (l :: ls) =
      (pmStep cur l).2.toList ++ pmSpecFrom (pmStep cur l).1 ls := by
  simp only [pmSpecFrom, List.length_cons, List.range_succ_eq_map, List.filterMap_cons,
    List.filterMap_map, List.getD_cons_zero, List.getD_cons_succ, Nat.succ_eq_add_one,
    lastParsedTs_zero, lastParsedTs_succ, Function.comp]
  obtain ⟨ts, p⟩ := l
  rcases ts with _ | o
  · rcases p with _ | pw <;> rcases cur with _ | c <;>
      simp [pmStep] <;>
      (apply List.filterMap_congr; intro i hi;
       simp [List.getElem?_cons_succ, lastParsedTs_succ, pmStep])
  · rcases o with _ | t
    · rcases p with _ | pw <;> rcases cur with _ | c <;>
        simp [pmStep] <;>
        (apply List.filterMap_congr; intro i hi;
         simp [List.getElem?_cons_succ, lastParsedTs_succ, pmStep])
    · rcases p with _ | pw <;> rcases cur with _ | c <;>
        simp [pmStep] <;>
        (apply List.filterMap_congr; intro i hi;
         simp [List.getElem?_cons_succ, lastParsedTs_succ, pmStep])

theorem pmParse_eq_spec (ls : List PMLine) (cur : Option ℤ) :
    pmParseFrom cur ls = pmSpecFrom cur ls := by
  induction ls generalizing cur with
  | nil => rfl
  | cons l ls2 ih =>
    rw [pmParseFrom_cons, pmSpecFrom_cons, ih]

end Power

/-- Claim C10 (confirmed): a power line yields a sample only when a parseable
timestamp announcement has already been seen; power lines before the first
parseable timestamp are silently discarded; and each emitted sample carries
the most recent parseable timestamp announced at or before it.  This is stated
as: the parse loop computes exactly the declarative description `pmSpecFrom`
started with no timestamp in force. -/
theorem claim_C10 (lines : List Power.PMLine) :
    Power.parsePowermetricsLog lines = Power.pmSpecFrom none lines :=
  Power.pmParse_eq_spec lines none

/-- Claim C3 counterexample: with two naive records for the same
(operation, scale) group (throughputs 100 then 200) and a third record with
throughput 400, `compare_mac_graviton.calculate_speedups` computes speedups
from the LAST naive record (giving 1/2, 1, 2), not from the first (which
would give 1, 2, 4) — so the claim's "first record in stable input order" is
false on this input. -/
theorem claim_C3_counterexample :
    (Compare.calculateSpeedups
        [⟨"A", "naive", "S", "10", 100, none⟩,
         ⟨"A", "naive", "S", "10", 200, none⟩,
         ⟨"A", "fast", "S", "10", 400, none⟩]).map (·.speedup) =
      [some ((1 : ℚ)/2), some 1, some 2] ∧
    (Compare.calculateSpeedups
        [⟨"A", "naive", "S", "10", 100, none⟩,
         ⟨"A", "naive", "S", "10", 200, none⟩,
         ⟨"A", "fast", "S", "10", 400, none⟩]).map (·.speedup) ≠
      [some 1, some 2, some 4] := by
  constructor <;>
    norm_num [Compare.calculateSpeedups, Compare.naiveDict, dictInsert, dictLookup,
      Compare.cmpKey]

/-- Claim C3 amended: in `compare_mac_graviton.calculate_speedups` the baseline
for each (operation, scale) group is the LAST naive record in stable input
order (dict assignment overwrites), while in
`parse_powermetrics.calculate_energy_efficiency` it is the FIRST naive record
of the group (`next` over a generator). -/
theorem claim_C3_amended :
    (∀ (exps : List Compare.CmpExp) (k : String × String),
        dictLookup (Compare.naiveDict exps) k = Compare.lastNaiveBaseline exps k) ∧
    (∀ exps : List Power.PExp,
        exps.find? (fun e => e.config == "naive") = Power.firstNaive exps) := by
  constructor
  · exact Compare.naiveDict_eq_last
  · intro exps
    rw [Power.firstNaive, find_eq_filter_head]

namespace Power

theorem processExps_ok_mem (nt ne : ℚ) (l : List PExp) (out : List PExpOut) (r : PExpOut)
    (hok : processExps nt ne l = Except.ok out) (hr : r ∈ out) :
    ∃ e ∈ l, processOne nt ne e = Except.ok r := by
  induction l generalizing out with
  | nil =>
    unfold processExps at hok
    cases hok
    simp at hr
  | cons e rest ih =>
    unfold processExps at hok
    cases h1 : processOne nt ne e with
    | error msg => rw [h1] at hok; cases hok
    | ok r1 =>
      rw [h1] at hok
      cases h2 : processExps nt ne rest with
      | error msg => rw [h2] at hok; cases hok
      | ok rs =>
        rw [h2] at hok
        cases hok
        rcases List.mem_cons.mp hr with hre | hrm
        · exact ⟨e, List.mem_cons_self e rest, by rw [h1, hre]⟩
        · obtain ⟨e2, he2, hp2⟩ := ih rs h2 hrm
          exact ⟨e2, List.mem_cons_of_mem e he2, hp2⟩

end Power

/-- Claim C4 counterexample: in `parse_powermetrics.calculate_energy_efficiency`,
with a naive record taking 100 s and a neon record taking 400 s (one iteration
each, equal energy), the neon record's derived `time_speedup_vs_naive` is
100/400 = 1/4 — the baseline value divided by the measured value — where the
claim's "measured value divided by the baseline value" would demand 400/100 = 4. -/
theorem claim_C4_counterexample :
    Power.calculateEnergyEfficiency
        [⟨"A", "naive", "S", 100, 1, 1⟩, ⟨"A", "neon", "S", 400, 1, 1⟩] =
      Except.ok
        [⟨⟨"A", "naive", "S", 100, 1, 1⟩, some 1, some 1, some 1⟩,
         ⟨⟨"A", "neon", "S", 400, 1, 1⟩, some ((1 : ℚ)/4), some 1, some ((1 : ℚ)/4)⟩] ∧
    ((1 : ℚ)/4) ≠ 400/100 := by
  constructor
  · have hne1 : ¬ (("neon" : String) = "naive") := by decide
    norm_num [Power.calculateEnergyEfficiency, Power.pGroups, Power.pKey, dictInsert,
      dictLookup, Power.processGroups, Power.processGroup, Power.processExps,
      Power.processOne, List.find?, hne1]
  · norm_num

/-- Claim C4 amended: when a group's baseline throughput is positive,
`compare_mac_graviton.calculate_speedups` gives every record, including the
baseline record itself (whose ratio is then exactly 1), the speedup
`measured / baseline`; but in `parse_powermetrics.calculate_energy_efficiency`
naive records are assigned exactly 1.0 directly, and every other record's
`time_speedup_vs_naive` is `baseline_time / measured_time` (the INVERSE of
measured over baseline, since lower time is better), guarded to 0 when the
measured time is not positive. -/
theorem claim_C4_amended :
    (∀ (exps : List Compare.CmpExp) (r : Compare.CmpExp) (b : ℚ),
        r ∈ Compare.calculateSpeedups exps →
        Compare.lastNaiveBaseline exps (Compare.cmpKey r) = some b →
        0 < b →
        r.speedup = some (r.throughput / b)) ∧
    (∀ (g : List Power.PExp) (out : List Power.PExpOut) (r : Power.PExpOut),
        Power.processGroup g = Except.ok out → r ∈ out →
        (r.exp.config = "naive" →
          r.time_speedup = some 1 ∧ r.energy_speedup = some 1 ∧
            r.energy_efficiency = some 1) ∧
        (∀ nv : Power.PExp, Power.firstNaive g = some nv → r.exp.config ≠ "naive" →
          r.time_speedup =
            some (if 0 < r.exp.loop_duration_s / (r.exp.iterations : ℚ)
                  then (nv.loop_duration_s / (nv.iterations : ℚ)) /
                    (r.exp.loop_duration_s / (r.exp.iterations : ℚ))
                  else 0))) := by
  constructor
  · intro exps r b hr hb hpos
    simp only [Compare.calculateSpeedups, List.mem_map] at hr
    obtain ⟨e, he, hfe⟩ := hr
    rcases hd : dictLookup (Compare.naiveDict exps) (Compare.cmpKey e) with _ | b2
    · rw [hd] at hfe
      replace hfe : ({ e with speedup := some 1 } : Compare.CmpExp) = r := hfe
      subst hfe
      have hkey : Compare.cmpKey { e with speedup := some 1 } = Compare.cmpKey e := rfl
      rw [hkey, ← Compare.naiveDict_eq_last, hd] at hb
      cases hb
    · rw [hd] at hfe
      replace hfe :
          ({ e with speedup := some (if 0 < b2 then e.throughput / b2 else 0) } :
            Compare.CmpExp) = r := hfe
      subst hfe
      have hkey :
          Compare.cmpKey
              { e with speedup := some (if 0 < b2 then e.throughput / b2 else 0) } =
            Compare.cmpKey e := rfl
      rw [hkey, ← Compare.naiveDict_eq_last, hd] at hb
      have hbb : b2 = b := by cases hb; rfl
      subst hbb
      simp [hpos]
  · intro g out r hok hr
    unfold Power.processGroup at hok
    cases hfind : g.find? (fun e => e.config == "naive") with
    | none =>
      rw [hfind] at hok
      replace hok :
          Except.ok (g.map fun e => ({ exp := e } : Power.PExpOut)) = Except.ok out := hok
      cases hok
      constructor
      · intro hcfg
        exfalso
        obtain ⟨e, he, hre⟩ := List.mem_map.mp hr
        have hce : e.config = "naive" := by rw [← hre] at hcfg; exact hcfg
        have hnone := List.find?_eq_none.mp hfind e he
        simp [hce] at hnone
      · intro nv hnv hne
        exfalso
        have hfd : g.find? (fun e => e.config == "naive") = some nv := by
          rw [find_eq_filter_head]
          exact hnv
        rw [hfind] at hfd
        cases hfd
    | some naive =>
      rw [hfind] at hok
      replace hok :
          (if naive.iterations = 0 then
              (Except.error "ZeroDivisionError: division by zero" :
                Except String (List Power.PExpOut))
            else
              Power.processExps (naive.loop_duration_s / (naive.iterations : ℚ))
                naive.energy_per_seq_uwh g) = Except.ok out := hok
      by_cases hiter : naive.iterations = 0
      · rw [if_pos hiter] at hok; cases hok
      · rw [if_neg hiter] at hok
        obtain ⟨e, he, hone⟩ := Power.processExps_ok_mem _ _ g out r hok hr
        unfold Power.processOne at hone
        by_cases hez : e.iterations = 0
        · rw [if_pos hez] at hone; cases hone
        · rw [if_neg hez] at hone
          cases hc : (e.config == "naive") with
          | true =>
            rw [hc] at hone
            replace hone :
                Except.ok
                    ({ exp := e, time_speedup := some 1, energy_speedup := some 1,
                       energy_efficiency := some 1 } : Power.PExpOut) =
                  Except.ok r := hone
            cases hone
            constructor
            · intro _
              exact ⟨rfl, rfl, rfl⟩
            · intro nv hnv hne
              exfalso
              exact hne (by simpa using hc)
          | false =>
            rw [hc] at hone
            replace hone :
                Except.ok
                    ({ exp := e,
                       time_speedup :=
                         some (if 0 < e.loop_duration_s / (e.iterations : ℚ)
                               then (naive.loop_duration_s / (naive.iterations : ℚ)) /
                                 (e.loop_duration_s / (e.iterations : ℚ))
                               else 0),
                       energy_speedup :=
                         some (if 0 < e.energy_per_seq_uwh
                               then naive.energy_per_seq_uwh / e.energy_per_seq_uwh
                               else 0),
                       energy_efficiency :=
                         some (if 0 < (if 0 < e.energy_per_seq_uwh
                                       then naive.energy_per_seq_uwh / e.energy_per_seq_uwh
                                       else 0)
                               then (if 0 < e.loop_duration_s / (e.iterations : ℚ)
                                     then (naive.loop_duration_s / (naive.iterations : ℚ)) /
                                       (e.loop_duration_s / (e.iterations : ℚ))
                                     else 0) /
                                 (if 0 < e.energy_per_seq_uwh
                                  then naive.energy_per_seq_uwh / e.energy_per_seq_uwh
                                  else 0)
                               else 0) } : Power.PExpOut) =
                  Except.ok r := hone
            cases hone
            constructor
            · intro hcfg
              exfalso
              have hce : (e.config == "naive") = true := by
                simp [show e.config = "naive" from hcfg]
              rw [hc] at hce
              cases hce
            · intro nv hnv hne
              have hfd : some naive = some nv := by
                rw [← hfind, find_eq_filter_head]
                exact hnv
              have hnn : naive = nv := by cases hfd; rfl
              subst hnn
              rfl

theorem claim_C4_amended_witness :
    ((⟨"A", "fast", "S", "10", 400, some 4⟩ : Compare.CmpExp).speedup =
      some ((400 : ℚ) / 100)) ∧
    ((⟨⟨"A", "neon", "S", 400, 1, 1⟩, some ((1 : ℚ)/4), some 1, some ((1 : ℚ)/4)⟩ :
        Power.PExpOut).time_speedup =
      some (if 0 < (400 : ℚ) / (((1 : ℤ) : ℚ))
            then ((100 : ℚ) / (((1 : ℤ) : ℚ))) / ((400 : ℚ) / (((1 : ℤ) : ℚ)))
            else 0)) := by
  have hne1 : ¬ (("neon" : String) = "naive") := by decide
  have hfa : ¬ (("fast" : String) = "naive") := by decide
  constructor
  · exact claim_C4_amended.1
      [⟨"A", "naive", "S", "10", 100, none⟩, ⟨"A", "fast", "S", "10", 400, none⟩]
      ⟨"A", "fast", "S", "10", 400, some 4⟩ 100
      (by norm_num [Compare.calculateSpeedups, Compare.naiveDict, dictInsert, dictLookup,
        Compare.cmpKey])
      (by norm_num [Compare.lastNaiveBaseline, Compare.cmpKey, hfa])
      (by norm_num)
  · exact (claim_C4_amended.2
      [⟨"A", "naive", "S", 100, 1, 1⟩, ⟨"A", "neon", "S", 400, 1, 1⟩]
      [⟨⟨"A", "naive", "S", 100, 1, 1⟩, some 1, some 1, some 1⟩,
       ⟨⟨"A", "neon", "S", 400, 1, 1⟩, some ((1 : ℚ)/4), some 1, some ((1 : ℚ)/4)⟩]
      ⟨⟨"A", "neon", "S", 400, 1, 1⟩, some ((1 : ℚ)/4), some 1, some ((1 : ℚ)/4)⟩
      (by norm_num [Power.processGroup, Power.processExps, Power.processOne,
        List.find?, hne1])
      (by norm_num)).2
      ⟨"A", "naive", "S", 100, 1, 1⟩
      (by norm_num [Power.firstNaive, hne1])
      (by decide)

/-- Claim C1 counterexample: in `analyze_composition.calculate_speedups`, a
group with naive throughput 0 and neon throughput 50 yields
`speedup_neon = 50 / 0 = inf` (numpy float division), an infinite derived
ratio — not 0.0 as the claim states for zero-baseline groups. -/
theorem claim_C1_counterexample :
    (Compose.calculateSpeedups
        [⟨"A", "T", "naive", 0, 1/5, 100⟩,
         ⟨"A", "T", "neon", 50, 1/5, 100⟩,
         ⟨"A", "T", "neon_parallel", 100, 1/5, 100⟩]).map (·.speedupNeon) =
      [Compose.NF.inf] ∧
    Compose.NF.inf ≠ Compose.NF.fin 0 := by
  constructor
  · decide
  · decide

/-- Claim C1 amended: in `compare_mac_graviton.calculate_speedups` a group
whose naive baseline throughput is zero (or negative) gives every record
speedup 0.0 with no fault, as the claim states; but in
`analyze_composition.calculate_speedups` only `composition_ratio` is guarded —
`speedup_neon` is the unguarded numpy quotient of the first neon row by the
first naive row, so a zero naive throughput under a positive neon throughput
yields an infinite derived ratio. -/
theorem claim_C1_amended :
    (∀ (exps : List Compare.CmpExp) (r : Compare.CmpExp) (b : ℚ),
        r ∈ Compare.calculateSpeedups exps →
        Compare.lastNaiveBaseline exps (Compare.cmpKey r) = some b →
        b ≤ 0 →
        r.speedup = some 0) ∧
    (∀ (rows : List Compose.CompRow) (res : Compose.CompResult)
        (nv ne : Compose.CompRow),
        res ∈ Compose.calculateSpeedups rows →
        Compose.firstBackendRow rows res.operation res.scale "naive" = some nv →
        Compose.firstBackendRow rows res.operation res.scale "neon" = some ne →
        nv.throughput = 0 → 0 < ne.throughput →
        res.speedupNeon = Compose.NF.inf) := by
  constructor
  · intro exps r b hr hb hle
    simp only [Compare.calculateSpeedups, List.mem_map] at hr
    obtain ⟨e, he, hfe⟩ := hr
    rcases hd : dictLookup (Compare.naiveDict exps) (Compare.cmpKey e) with _ | b2
    · rw [hd] at hfe
      replace hfe : ({ e with speedup := some 1 } : Compare.CmpExp) = r := hfe
      subst hfe
      have hkey : Compare.cmpKey { e with speedup := some 1 } = Compare.cmpKey e := rfl
      rw [hkey, ← Compare.naiveDict_eq_last, hd] at hb
      cases hb
    · rw [hd] at hfe
      replace hfe :
          ({ e with speedup := some (if 0 < b2 then e.throughput / b2 else 0) } :
            Compare.CmpExp) = r := hfe
      subst hfe
      have hkey :
          Compare.cmpKey
              { e with speedup := some (if 0 < b2 then e.throughput / b2 else 0) } =
            Compare.cmpKey e := rfl
      rw [hkey, ← Compare.naiveDict_eq_last, hd] at hb
      have hbb : b2 = b := by cases hb; rfl
      subst hbb
      simp [not_lt.mpr hle]
  · intro rows res nv ne hres hnv hne hz hpos
    simp only [Compose.calculateSpeedups, List.mem_filterMap] at hres
    obtain ⟨p, hp, hcrf⟩ := hres
    simp only [Compose.compRowFor] at hcrf
    cases h1 : Compose.firstBackendRow rows p.1 p.2 "naive" with
    | none =>
      rw [h1] at hcrf
      replace hcrf : (none : Option Compose.CompResult) = some res := hcrf
      cases hcrf
    | some nv0 =>
      rw [h1] at hcrf
      cases h2 : Compose.firstBackendRow rows p.1 p.2 "neon" with
      | none =>
        rw [h2] at hcrf
        replace hcrf : (none : Option Compose.CompResult) = some res := hcrf
        cases hcrf
      | some ne0 =>
        rw [h2] at hcrf
        cases h3 : Compose.firstBackendRow rows p.1 p.2 "neon_parallel" with
        | none =>
          rw [h3] at hcrf
          replace hcrf : (none : Option Compose.CompResult) = some res := hcrf
          cases hcrf
        | some np0 =>
          rw [h3] at hcrf
          cases h4 : (rows.filter fun r => r.operation == p.1 && r.scale == p.2).head? with
          | none =>
            rw [h4] at hcrf
            replace hcrf : (none : Option Compose.CompResult) = some res := hcrf
            cases hcrf
          | some s0 =>
            rw [h4] at hcrf
            replace hcrf :
                some
                  ({ operation := p.1, complexity := s0.complexity, scale := p.2,
                     num_sequences := s0.num_sequences,
                     speedupNeon :=
                       Compose.nfdiv (Compose.NF.fin ne0.throughput)
                         (Compose.NF.fin nv0.throughput),
                     expectedParallel := Compose.expectedParallelSpeedup s0.complexity,
                     observedParallel :=
                       Compose.nfdiv (Compose.NF.fin np0.throughput)
                         (Compose.NF.fin ne0.throughput),
                     speedupNeonParallel :=
                       Compose.nfdiv (Compose.NF.fin np0.throughput)
                         (Compose.NF.fin nv0.throughput),
                     predictedCombined :=
                       Compose.nfmul
                         (Compose.nfdiv (Compose.NF.fin ne0.throughput)
                           (Compose.NF.fin nv0.throughput))
                         (Compose.NF.fin (Compose.expectedParallelSpeedup s0.complexity)),
                     compositionRatio :=
                       if Compose.nfPos
                            (Compose.nfmul
                              (Compose.nfdiv (Compose.NF.fin ne0.throughput)
                                (Compose.NF.fin nv0.throughput))
                              (Compose.NF.fin
                                (Compose.expectedParallelSpeedup s0.complexity))) then
                         Compose.nfdiv
                           (Compose.nfdiv (Compose.NF.fin np0.throughput)
                             (Compose.NF.fin nv0.throughput))
                           (Compose.nfmul
                             (Compose.nfdiv (Compose.NF.fin ne0.throughput)
                               (Compose.NF.fin nv0.throughput))
                             (Compose.NF.fin
                               (Compose.expectedParallelSpeedup s0.complexity)))
                       else Compose.NF.fin 0,
                     errorPct :=
                       Compose.nfmul
                         (Compose.nfabs
                           (Compose.nfsub
                             (if Compose.nfPos
                                  (Compose.nfmul
                                    (Compose.nfdiv (Compose.NF.fin ne0.throughput)
                                      (Compose.NF.fin nv0.throughput))
                                    (Compose.NF.fin
                                      (Compose.expectedParallelSpeedup s0.complexity))) then
                                Compose.nfdiv
                                  (Compose.nfdiv (Compose.NF.fin np0.throughput)
                                    (Compose.NF.fin nv0.throughput))
                                  (Compose.nfmul
                                    (Compose.nfdiv (Compose.NF.fin ne0.throughput)
                                      (Compose.NF.fin nv0.throughput))
                                    (Compose.NF.fin
                                      (Compose.expectedParallelSpeedup s0.complexity)))
                              else Compose.NF.fin 0)
                             (Compose.NF.fin 1)))
                         (Compose.NF.fin 100) } : Compose.CompResult) = some res := hcrf
            cases hcrf
            have hnv2 : Compose.firstBackendRow rows p.1 p.2 "naive" = some nv := hnv
            have hne2 : Compose.firstBackendRow rows p.1 p.2 "neon" = some ne := hne
            have hv : nv0 = nv := by
              have := h1.symm.trans hnv2
              cases this
              rfl
            have hn : ne0 = ne := by
              have := h2.symm.trans hne2
              cases this
              rfl
            subst hv
            subst hn
            show Compose.nfdiv (Compose.NF.fin ne0.throughput)
                (Compose.NF.fin nv0.throughput) = Compose.NF.inf
            rw [hz]
            simp [Compose.nfdiv, hpos]

theorem claim_C1_amended_witness :
    ((⟨"A", "fast", "S", "10", 50, some 0⟩ : Compare.CmpExp).speedup = some 0) ∧
    Compose.nfdiv (Compose.NF.fin 50) (Compose.NF.fin 0) = Compose.NF.inf := by
  constructor
  · exact claim_C1_amended.1
      [⟨"A", "naive", "S", "10", 0, none⟩, ⟨"A", "fast", "S", "10", 50, none⟩]
      ⟨"A", "fast", "S", "10", 50, some 0⟩ 0
      (by decide) (by decide) (by decide)
  · exact claim_C1_amended.2
      [⟨"A", "T", "naive", 0, 1/5, 100⟩,
       ⟨"A", "T", "neon", 50, 1/5, 100⟩,
       ⟨"A", "T", "neon_parallel", 100, 1/5, 100⟩]
      ⟨"A", 1/5, "T", 100,
        Compose.nfdiv (Compose.NF.fin 50) (Compose.NF.fin 0),
        Compose.expectedParallelSpeedup (1/5),
        Compose.nfdiv (Compose.NF.fin 100) (Compose.NF.fin 50),
        Compose.nfdiv (Compose.NF.fin 100) (Compose.NF.fin 0),
        Compose.nfmul (Compose.nfdiv (Compose.NF.fin 50) (Compose.NF.fin 0))
          (Compose.NF.fin (Compose.expectedParallelSpeedup (1/5))),
        (if Compose.nfPos
              (Compose.nfmul (Compose.nfdiv (Compose.NF.fin 50) (Compose.NF.fin 0))
                (Compose.NF.fin (Compose.expectedParallelSpeedup (1/5)))) then
           Compose.nfdiv (Compose.nfdiv (Compose.NF.fin 100) (Compose.NF.fin 0))
             (Compose.nfmul (Compose.nfdiv (Compose.NF.fin 50) (Compose.NF.fin 0))
               (Compose.NF.fin (Compose.expectedParallelSpeedup (1/5))))
         else Compose.NF.fin 0),
        Compose.nfmul
          (Compose.nfabs
            (Compose.nfsub
              (if Compose.nfPos
                    (Compose.nfmul
                      (Compose.nfdiv (Compose.NF.fin 50) (Compose.NF.fin 0))
                      (Compose.NF.fin (Compose.expectedParallelSpeedup (1/5)))) then
                 Compose.nfdiv (Compose.nfdiv (Compose.NF.fin 100) (Compose.NF.fin 0))
                   (Compose.nfmul (Compose.nfdiv (Compose.NF.fin 50) (Compose.NF.fin 0))
                     (Compose.NF.fin (Compose.expectedParallelSpeedup (1/5))))
               else Compose.NF.fin 0)
              (Compose.NF.fin 1)))
          (Compose.NF.fin 100)⟩
      ⟨"A", "T", "naive", 0, 1/5, 100⟩
      ⟨"A", "T", "neon", 50, 1/5, 100⟩
      (List.mem_singleton.mpr rfl)
      rfl rfl rfl (by decide)

/-- Claim C2 counterexample: in `analyze_composition.calculate_speedups`, a
(operation, scale) group with records but no naive baseline is silently
skipped: the output is empty, so the group is NOT represented, no 1.0 neutral
ratio is assigned, and no warning is recorded anywhere in the function. -/
theorem claim_C2_counterexample :
    Compose.calculateSpeedups
        [⟨"A", "S", "neon", 50, 1/5, 100⟩, ⟨"A", "S", "neon_parallel", 100, 1/5, 100⟩] =
      [] ∧
    ([⟨"A", "S", "neon", 50, 1/5, 100⟩, ⟨"A", "S", "neon_parallel", 100, 1/5, 100⟩] :
      List Compose.CompRow) ≠ [] := by
  constructor <;> decide

/-- Claim C2 amended: in `compare_mac_graviton.calculate_speedups` a record of
a baseline-less group does get the neutral speedup 1.0, no exception is
raised, and every record stays in the output (the length is preserved) — but
no warning is surfaced (the source has only a comment there).  In
`analyze_composition.calculate_speedups`, by contrast, a result row exists
only for groups that do have a naive record, so baseline-less groups are
dropped from the output entirely rather than represented with neutral
ratios. -/
theorem claim_C2_amended :
    (∀ (exps : List Compare.CmpExp) (r : Compare.CmpExp),
        r ∈ Compare.calculateSpeedups exps →
        Compare.lastNaiveBaseline exps (Compare.cmpKey r) = none →
        r.speedup = some 1) ∧
    (∀ exps : List Compare.CmpExp,
        (Compare.calculateSpeedups exps).length = exps.length) ∧
    (∀ (rows : List Compose.CompRow) (res : Compose.CompResult),
        res ∈ Compose.calculateSpeedups rows →
        ∃ nv : Compose.CompRow,
          Compose.firstBackendRow rows res.operation res.scale "naive" = some nv) := by
  refine ⟨?_, ?_, ?_⟩
  · intro exps r hr hb
    simp only [Compare.calculateSpeedups, List.mem_map] at hr
    obtain ⟨e, he, hfe⟩ := hr
    rcases hd : dictLookup (Compare.naiveDict exps) (Compare.cmpKey e) with _ | b2
    · rw [hd] at hfe
      replace hfe : ({ e with speedup := some 1 } : Compare.CmpExp) = r := hfe
      subst hfe
      rfl
    · rw [hd] at hfe
      replace hfe :
          ({ e with speedup := some (if 0 < b2 then e.throughput / b2 else 0) } :
            Compare.CmpExp) = r := hfe
      subst hfe
      have hkey :
          Compare.cmpKey
              { e with speedup := some (if 0 < b2 then e.throughput / b2 else 0) } =
            Compare.cmpKey e := rfl
      rw [hkey, ← Compare.naiveDict_eq_last, hd] at hb
      cases hb
  · intro exps
    simp [Compare.calculateSpeedups]
  · intro rows res hres
    simp only [Compose.calculateSpeedups, List.mem_filterMap] at hres
    obtain ⟨p, hp, hcrf⟩ := hres
    simp only [Compose.compRowFor] at hcrf
    cases h1 : Compose.firstBackendRow rows p.1 p.2 "naive" with
    | none =>
      rw [h1] at hcrf
      replace hcrf : (none : Option Compose.CompResult) = some res := hcrf
      cases hcrf
    | some nv0 =>
      rw [h1] at hcrf
      cases h2 : Compose.firstBackendRow rows p.1 p.2 "neon" with
      | none =>
        rw [h2] at hcrf
        replace hcrf : (none : Option Compose.CompResult) = some res := hcrf
        cases hcrf
      | some ne0 =>
        rw [h2] at hcrf
        cases h3 : Compose.firstBackendRow rows p.1 p.2 "neon_parallel" with
        | none =>
          rw [h3] at hcrf
          replace hcrf : (none : Option Compose.CompResult) = some res := hcrf
          cases hcrf
        | some np0 =>
          rw [h3] at hcrf
          cases h4 : (rows.filter fun r => r.operation == p.1 && r.scale == p.2).head? with
          | none =>
            rw [h4] at hcrf
            replace hcrf : (none : Option Compose.CompResult) = some res := hcrf
            cases hcrf
          | some s0 =>
            rw [h4] at hcrf
            have hres2 := Option.some.inj hcrf
            refine ⟨nv0, ?_⟩
            rw [← hres2]
            exact h1

theorem claim_C2_amended_witness :
    ((⟨"A", "fast", "S", "10", 50, some 1⟩ : Compare.CmpExp).speedup = some 1) ∧
    (Compare.calculateSpeedups [⟨"A", "fast", "S", "10", 50, none⟩]).length = 1 ∧
    (∃ nv : Compose.CompRow,
      Compose.firstBackendRow
        [⟨"A", "T", "naive", 0, 1/5, 100⟩,
         ⟨"A", "T", "neon", 50, 1/5, 100⟩,
         ⟨"A", "T", "neon_parallel", 100, 1/5, 100⟩] "A" "T" "naive" = some nv) := by
  refine ⟨?_, ?_, ?_⟩
  · exact claim_C2_amended.1 [⟨"A", "fast", "S", "10", 50, none⟩]
      ⟨"A", "fast", "S", "10", 50, some 1⟩ (by decide) (by decide)
  · exact claim_C2_amended.2.1 [⟨"A", "fast", "S", "10", 50, none⟩]
  · exact claim_C2_amended.2.2
      [⟨"A", "T", "naive", 0, 1/5, 100⟩,
       ⟨"A", "T", "neon", 50, 1/5, 100⟩,
       ⟨"A", "T", "neon_parallel", 100, 1/5, 100⟩]
      ⟨"A", 1/5, "T", 100,
        Compose.nfdiv (Compose.NF.fin 50) (Compose.NF.fin 0),
        Compose.expectedParallelSpeedup (1/5),
        Compose.nfdiv (Compose.NF.fin 100) (Compose.NF.fin 50),
        Compose.nfdiv (Compose.NF.fin 100) (Compose.NF.fin 0),
        Compose.nfmul (Compose.nfdiv (Compose.NF.fin 50) (Compose.NF.fin 0))
          (Compose.NF.fin (Compose.expectedParallelSpeedup (1/5))),
        (if Compose.nfPos
              (Compose.nfmul (Compose.nfdiv (Compose.NF.fin 50) (Compose.NF.fin 0))
                (Compose.NF.fin (Compose.expectedParallelSpeedup (1/5)))) then
           Compose.nfdiv (Compose.nfdiv (Compose.NF.fin 100) (Compose.NF.fin 0))
             (Compose.nfmul (Compose.nfdiv (Compose.NF.fin 50) (Compose.NF.fin 0))
               (Compose.NF.fin (Compose.expectedParallelSpeedup (1/5))))
         else Compose.NF.fin 0),
        Compose.nfmul
          (Compose.nfabs
            (Compose.nfsub
              (if Compose.nfPos
                    (Compose.nfmul
                      (Compose.nfdiv (Compose.NF.fin 50) (Compose.NF.fin 0))
                      (Compose.NF.fin (Compose.expectedParallelSpeedup (1/5)))) then
                 Compose.nfdiv (Compose.nfdiv (Compose.NF.fin 100) (Compose.NF.fin 0))
                   (Compose.nfmul (Compose.nfdiv (Compose.NF.fin 50) (Compose.NF.fin 0))
                     (Compose.NF.fin (Compose.expectedParallelSpeedup (1/5))))
               else Compose.NF.fin 0)
              (Compose.NF.fin 1)))
          (Compose.NF.fin 100)⟩
      (List.mem_singleton.mpr rfl)

namespace Regression

theorem pyMaxByKey_cons {α : Type} (key : α → ℚ) (b : α) (l : List α) :
    pyMaxByKey key (b :: l) =
      l.foldl
        (fun best x =>
          match best with
          | none => some x
          | some c => if key c < key x then some x else some c) (some b) := rfl

theorem pyMaxByKey_spec {α : Type} (key : α → ℚ) :
    ∀ (l : List α) (b : α),
      ∃ m, pyMaxByKey key (b :: l) = some m ∧ m ∈ b :: l ∧
        (∀ y ∈ b :: l, key y ≤ key m) ∧
        (b :: l).find? (fun x => decide (key m ≤ key x)) = some m := by
  intro l
  induction l with
  | nil =>
    intro b
    refine ⟨b, rfl, List.mem_singleton.mpr rfl, ?_, ?_⟩
    · intro y hy
      rw [List.mem_singleton.mp hy]
    · rw [List.find?_cons_of_pos _ (by simp)]
  | cons x xs ih =>
    intro b
    have hstep : pyMaxByKey key (b :: x :: xs) =
        pyMaxByKey key ((if key b < key x then x else b) :: xs) := by
      by_cases h : key b < key x <;>
        simp [pyMaxByKey_cons, List.foldl_cons, h]
    obtain ⟨m, hm, hmem, hub, hfind⟩ := ih (if key b < key x then x else b)
    have hibm : key (if key b < key x then x else b) ≤ key m :=
      hub _ (List.mem_cons_self _ _)
    refine ⟨m, by rw [hstep]; exact hm, ?_, ?_, ?_⟩
    · rcases List.mem_cons.mp hmem with he | hxs
      · by_cases h : key b < key x
        · rw [if_pos h] at he
          rw [he]
          exact List.mem_cons_of_mem _ (List.mem_cons_self _ _)
        · rw [if_neg h] at he
          rw [he]
          exact List.mem_cons_self _ _
      · exact List.mem_cons_of_mem _ (List.mem_cons_of_mem _ hxs)
    · intro y hy
      rcases List.mem_cons.mp hy with hyb | hy2
      · rw [hyb]
        by_cases h : key b < key x
        · rw [if_pos h] at hibm
          exact le_of_lt (lt_of_lt_of_le h hibm)
        · rw [if_neg h] at hibm
          exact hibm
      · rcases List.mem_cons.mp hy2 with hyx | hy3
        · rw [hyx]
          by_cases h : key b < key x
          · rw [if_pos h] at hibm
            exact hibm
          · rw [if_neg h] at hibm
            exact le_trans (not_lt.mp h) hibm
        · exact hub _ (List.mem_cons_of_mem _ hy3)
    · by_cases h : key b < key x
      · rw [if_pos h] at hfind hibm
        rw [List.find?_cons_of_neg _ (by simp [not_le.mpr (lt_of_lt_of_le h hibm)])]
        exact hfind
      · rw [if_neg h] at hfind hibm
        by_cases hpb : key m ≤ key b
        · have hfb : (b :: xs).find? (fun x2 => decide (key m ≤ key x2)) = some b :=
            List.find?_cons_of_pos _ (by simp [hpb])
          rw [hfb] at hfind
          have hmb : b = m := by cases hfind; rfl
          rw [List.find?_cons_of_pos _ (by simp [hpb])]
          rw [hmb]
        · have hfxs : xs.find? (fun x2 => decide (key m ≤ key x2)) = some m := by
            rw [List.find?_cons_of_neg _ (by simp [hpb])] at hfind
            exact hfind
          have hbx : key x ≤ key b := not_lt.mp h
          have hpx : ¬ key m ≤ key x := fun hc => hpb (le_trans hc hbx)
          rw [List.find?_cons_of_neg _ (by simp [hpb]),
            List.find?_cons_of_neg _ (by simp [hpx])]
          exact hfxs

end Regression

/-- Claim C5 counterexample: with training R² scores (0.9, 0.5, 0.5, 0.5) and
cross-validated scores (0.1, 0.99, 0.2, 0.2), `build_models` selects "linear"
(the highest TRAINING R²) even though its cross-validated score 0.1 is far
below the polynomial model's 0.99 — so "best" is not the model with the
highest cross-validated score. -/
theorem claim_C5_counterexample :
    Regression.bestModelName
        (Regression.buildModelsScores ⟨9/10, 0, 1/10⟩ ⟨1/2, 0, 99/100⟩
          ⟨1/2, 0, 1/5⟩ ⟨1/2, 0, 1/5⟩) = some "linear" ∧
    ((1 : ℚ)/10) < 99/100 := by
  constructor
  · norm_num [Regression.bestModelName, Regression.pyMaxByKey,
      Regression.buildModelsScores]
  · norm_num

/-- Claim C5 amended: `build_models` selects as "best" the model with the
highest TRAINING R² (`models[k][2]`), not the cross-validated score (which is
only printed); ties do break to the first fitted model in the fixed order
linear, polynomial, random forest, gradient boosting, as the `find?` clause
states: the chosen model is the first in fitted order whose training R²
reaches the maximum. -/
theorem claim_C5_amended (lin poly rf gb : Regression.ModelScores) :
    ∃ best : String × Regression.ModelScores,
      Regression.bestModelName (Regression.buildModelsScores lin poly rf gb) =
        some best.1 ∧
      best ∈ Regression.buildModelsScores lin poly rf gb ∧
      (∀ y ∈ Regression.buildModelsScores lin poly rf gb, y.2.r2 ≤ best.2.r2) ∧
      (Regression.buildModelsScores lin poly rf gb).find?
          (fun x => decide (best.2.r2 ≤ x.2.r2)) = some best := by
  obtain ⟨m, hm, hmem, hub, hfind⟩ :=
    Regression.pyMaxByKey_spec (fun p => p.2.r2)
      [("polynomial", poly), ("random_forest", rf), ("gradient_boosting", gb)]
      ("linear", lin)
  refine ⟨m, ?_, hmem, hub, hfind⟩
  rw [Regression.bestModelName,
    show Regression.buildModelsScores lin poly rf gb =
      [("linear", lin), ("polynomial", poly), ("random_forest", rf),
       ("gradient_boosting", gb)] from rfl,
    hm]
  rfl

theorem claim_C5_amended_witness :
    ∃ best : String × Regression.ModelScores,
      Regression.bestModelName
          (Regression.buildModelsScores ⟨1, 0, 0⟩ ⟨0, 0, 0⟩ ⟨0, 0, 0⟩ ⟨0, 0, 0⟩) =
        some best.1 ∧
      best ∈ Regression.buildModelsScores ⟨1, 0, 0⟩ ⟨0, 0, 0⟩ ⟨0, 0, 0⟩ ⟨0, 0, 0⟩ ∧
      (∀ y ∈ Regression.buildModelsScores ⟨1, 0, 0⟩ ⟨0, 0, 0⟩ ⟨0, 0, 0⟩ ⟨0, 0, 0⟩,
        y.2.r2 ≤ best.2.r2) ∧
      (Regression.buildModelsScores ⟨1, 0, 0⟩ ⟨0, 0, 0⟩ ⟨0, 0, 0⟩ ⟨0, 0, 0⟩).find?
          (fun x => decide (best.2.r2 ≤ x.2.r2)) = some best :=
  claim_C5_amended ⟨1, 0, 0⟩ ⟨0, 0, 0⟩ ⟨0, 0, 0⟩ ⟨0, 0, 0⟩

/-- Claim C6 counterexample: `build_models` defines no `InsufficientDataError`
and has no per-model error containment: when the second (polynomial) block's
evaluation raises — e.g. 5-fold cross-validation over 3 data points raises
`ValueError` from the external library — the whole run is the error; the
random-forest and gradient-boosting blocks are never reached, contradicting
"other requested models in the same run still attempt to fit". -/
theorem claim_C6_counterexample :
    Regression.buildModelsRun (fun _ => Except.ok 1)
        (fun _ => Except.error "ValueError: n_splits=5 greater than number of samples: 3")
        (fun _ => Except.ok 1) (fun _ => Except.ok 1) =
      Except.error "ValueError: n_splits=5 greater than number of samples: 3" := rfl

/-- Claim C6 amended: the four model blocks of `build_models` run in a fixed
sequence with no exception handler, so an error raised while evaluating one
model aborts the entire run — the result is that error whatever the later
blocks would have returned, so later models are not attempted and no per-model
`InsufficientDataError` containment exists.  When every block succeeds, the
run reports all four scores in the fixed evaluation order (the "with enough
points, a finite R² is reported" half of the claim). -/
theorem claim_C6_amended :
    (∀ (r1 : ℚ) (err : String) (e3 e4 : Unit → Except String ℚ),
        Regression.buildModelsRun (fun _ => Except.ok r1) (fun _ => Except.error err)
          e3 e4 = Except.error err) ∧
    (∀ r1 r2 r3 r4 : ℚ,
        Regression.buildModelsRun (fun _ => Except.ok r1) (fun _ => Except.ok r2)
          (fun _ => Except.ok r3) (fun _ => Except.ok r4) =
          Except.ok [("linear", r1), ("polynomial", r2), ("random_forest", r3),
            ("gradient_boosting", r4)]) := by
  constructor
  · intro r1 err e3 e4
    rfl
  · intro r1 r2 r3 r4
    rfl

/-- Claim C7 counterexample: `extract_mac_baseline` writes its CSV (consumed
downstream by `compare_mac_graviton.py`) with
`fieldnames = baseline[0].keys()`: permuting the input file's column order
permutes the output column order for the same data, so the column order is
derived from the record dicts' iteration order, not fixed. -/
theorem claim_C7_counterexample :
    ((Extract.extractMacBaseline
        [[("operation", "base_counting"), ("config", "naive"),
          ("scale", "Medium"), ("x", "1")]]).map (·.1) =
      some ["operation", "config", "scale", "x"]) ∧
    ((Extract.extractMacBaseline
        [[("x", "1"), ("operation", "base_counting"), ("config", "naive"),
          ("scale", "Medium")]]).map (·.1) =
      some ["x", "operation", "config", "scale"]) ∧
    (["operation", "config", "scale", "x"] : List String) ≠
      ["x", "operation", "config", "scale"] := by
  refine ⟨?_, ?_, ?_⟩ <;> decide

/-- Claim C7 amended: `save_enriched_csv` does use a fixed explicit 17-column
order whatever the records are; `write_comparison` derives its header from the
first row's key order, but every row `compare_platforms` builds has the same
fixed key order (a fixed dict literal), so that header is fixed too; but
`extract_mac_baseline` writes the key order of the first surviving input row —
the input file's column order — so its header is NOT fixed. -/
theorem claim_C7_amended :
    (∀ exps : List Power.PExpOut, exps ≠ [] →
        (Power.saveEnrichedCsv exps).map (·.1) = some Power.saveEnrichedFieldnames) ∧
    (∀ (mac grav : List Compare.CmpExp) (row : List (String × Compare.CValue)),
        row ∈ Compare.comparePlatforms mac grav →
        dictKeys row = Compare.comparisonFieldnames) ∧
    (∀ (rows : List Extract.Row) (out : List String × List Extract.Row),
        Extract.extractMacBaseline rows = some out →
        ∃ r0, r0 ∈ rows ∧ Extract.matchesTargets r0 = true ∧ out.1 = dictKeys r0) := by
  refine ⟨?_, ?_, ?_⟩
  · intro exps h
    cases exps with
    | nil => exact absurd rfl h
    | cons e rest => rfl
  · intro mac grav row hrow
    simp only [Compare.comparePlatforms, List.mem_filterMap] at hrow
    obtain ⟨g, hg, hf⟩ := hrow
    rcases hd :
        dictLookup
          ((Compare.calculateSpeedups mac).foldl
            (fun d e => dictInsert d (e.operation, e.config, e.scale) e) [])
          (g.operation, g.config, g.scale) with _ | m
    · rw [hd] at hf
      exact Option.noConfusion hf
    · rw [hd] at hf
      have hx := Option.some.inj hf
      rw [← hx]
      rfl
  · intro rows out hout
    simp only [Extract.extractMacBaseline] at hout
    cases hb : rows.filter Extract.matchesTargets with
    | nil =>
      rw [hb] at hout
      exact Option.noConfusion hout
    | cons b0 rest =>
      rw [hb] at hout
      have hx := Option.some.inj hout
      have hmemf : b0 ∈ rows.filter Extract.matchesTargets := by
        rw [hb]
        exact List.mem_cons_self _ _
      refine ⟨b0, List.mem_of_mem_filter hmemf, List.of_mem_filter hmemf, ?_⟩
      rw [← hx]

theorem claim_C7_amended_witness :
    ((Power.saveEnrichedCsv [⟨⟨"A", "naive", "S", 100, 1, 1⟩, some 1, some 1, some 1⟩]).map
        (·.1) = some Power.saveEnrichedFieldnames) ∧
    (dictKeys
        [("operation", Compare.CValue.s "A"), ("config", Compare.CValue.s "fast"),
         ("scale", Compare.CValue.s "S"), ("num_sequences", Compare.CValue.s "10"),
         ("mac_throughput", Compare.CValue.q 100), ("mac_speedup", Compare.CValue.q 1),
         ("graviton_throughput", Compare.CValue.q 200),
         ("graviton_speedup", Compare.CValue.q 1),
         ("portability_ratio",
           Compare.CValue.q (if 0 < (1 : ℚ) then 1 / 1 else 0)),
         ("speedup_variance_pct",
           Compare.CValue.q (if 0 < (1 : ℚ) then (1 - 1) / 1 * 100 else 0)),
         ("graviton_vs_mac_throughput",
           Compare.CValue.q (if 0 < (100 : ℚ) then 200 / 100 else 0))] =
      Compare.comparisonFieldnames) ∧
    (∃ r0, r0 ∈ ([[("operation", "base_counting"), ("config", "naive"),
          ("scale", "Medium")]] : List Extract.Row) ∧
      Extract.matchesTargets r0 = true ∧
      (["operation", "config", "scale"] : List String) = dictKeys r0) := by
  refine ⟨?_, ?_, ?_⟩
  · exact claim_C7_amended.1
      [⟨⟨"A", "naive", "S", 100, 1, 1⟩, some 1, some 1, some 1⟩] (by simp)
  · exact claim_C7_amended.2.1
      [⟨"A", "fast", "S", "10", 100, none⟩] [⟨"A", "fast", "S", "10", 200, none⟩]
      _ (List.mem_singleton.mpr rfl)
  · exact claim_C7_amended.2.2
      [[("operation", "base_counting"), ("config", "naive"), ("scale", "Medium")]]
      (["operation", "config", "scale"],
        [[("operation", "base_counting"), ("config", "naive"), ("scale", "Medium")]])
      rfl

/-- Claim C8 counterexample: `analyze_composition.py`'s `main` only rejects
`len(sys.argv) < 2`.  Invoked with three positional arguments where one is
expected (a wrong argument count), it does not print usage and does not exit
non-zero: it runs the analysis and writes the output CSV, exiting 0. -/
theorem claim_C8_counterexample :
    CLI.compositionMain ["analyze_composition.py", "comp.csv", "extra1", "extra2"]
        (fun _ => true)
        [⟨"A", "T", "naive", 100, 1/5, 100⟩, ⟨"A", "T", "neon", 200, 1/5, 100⟩,
         ⟨"A", "T", "neon_parallel", 400, 1/5, 100⟩] =
      ⟨0, true, none⟩ := by
  decide

/-- Claim C8 amended: `compare_mac_graviton.py` and `parse_powermetrics.py`
behave as claimed — a wrong argument count or a missing input file prints a
usage/error line and exits 1 with no output written.  `analyze_composition.py`
rejects only invocations with no argument: extra positional arguments are
ignored and the run proceeds to write output and exit 0; a missing input file
aborts with an uncaught `FileNotFoundError` traceback (non-zero exit, no
output, but no usage message). -/
theorem claim_C8_amended :
    (∀ (argv : List String) (ex : String → Bool) (mac grav : List Compare.CmpExp),
        argv.length ≠ 3 →
        CLI.compareMain argv ex mac grav =
          ⟨1, false,
            some "Usage: python compare_mac_graviton.py <mac_baseline_csv> <graviton_raw_csv>"⟩) ∧
    (∀ (argv : List String) (ex : String → Bool) (mac grav : List Compare.CmpExp),
        argv.length = 3 → ex ((argv.get? 1).getD "") = false →
        CLI.compareMain argv ex mac grav =
          ⟨1, false, some "Error: Mac baseline not found"⟩) ∧
    (∀ (argv : List String) (ex : String → Bool) (experiments : List Power.PExp),
        argv.length ≠ 3 →
        CLI.parsePowermetricsMain argv ex experiments =
          ⟨1, false,
            some "Usage: python parse_powermetrics.py <powermetrics_log> <pilot_csv>"⟩) ∧
    (∀ (argv : List String) (ex : String → Bool) (rows : List Compose.CompRow),
        2 ≤ argv.length → ex ((argv.get? 1).getD "") = true →
        (Compose.calculateSpeedups rows).isEmpty = false →
        CLI.compositionMain argv ex rows = ⟨0, true, none⟩) ∧
    (∀ (argv : List String) (ex : String → Bool) (rows : List Compose.CompRow),
        2 ≤ argv.length → ex ((argv.get? 1).getD "") = false →
        CLI.compositionMain argv ex rows = ⟨1, false, some "FileNotFoundError"⟩) := by
  refine ⟨?_, ?_, ?_, ?_, ?_⟩
  · intro argv ex mac grav h
    unfold CLI.compareMain
    rw [if_pos h]
  · intro argv ex mac grav h1 h2
    unfold CLI.compareMain
    rw [if_neg (by simp [h1]), if_pos (by simpa using h2)]
  · intro argv ex experiments h
    unfold CLI.parsePowermetricsMain
    rw [if_pos h]
  · intro argv ex rows h1 h2 h3
    unfold CLI.compositionMain
    rw [if_neg (by omega), if_neg (by simpa using h2), if_neg (by simp [h3])]
  · intro argv ex rows h1 h2
    unfold CLI.compositionMain
    rw [if_neg (by omega), if_pos (by simpa using h2)]

theorem claim_C8_amended_witness :
    (CLI.compareMain ["compare_mac_graviton.py"] (fun _ => true) [] [] =
      ⟨1, false,
        some "Usage: python compare_mac_graviton.py <mac_baseline_csv> <graviton_raw_csv>"⟩) ∧
    (CLI.compareMain ["compare_mac_graviton.py", "a.csv", "b.csv"] (fun _ => false) [] [] =
      ⟨1, false, some "Error: Mac baseline not found"⟩) ∧
    (CLI.parsePowermetricsMain ["parse_powermetrics.py"] (fun _ => true) [] =
      ⟨1, false,
        some "Usage: python parse_powermetrics.py <powermetrics_log> <pilot_csv>"⟩) ∧
    (CLI.compositionMain ["analyze_composition.py", "comp.csv", "extra1", "extra2"]
        (fun _ => true)
        [⟨"A", "T", "naive", 100, 1/5, 100⟩, ⟨"A", "T", "neon", 200, 1/5, 100⟩,
         ⟨"A", "T", "neon_parallel", 400, 1/5, 100⟩] = ⟨0, true, none⟩) ∧
    (CLI.compositionMain ["analyze_composition.py", "missing.csv"] (fun _ => false) [] =
      ⟨1, false, some "FileNotFoundError"⟩) := by
  refine ⟨?_, ?_, ?_, ?_, ?_⟩
  · exact claim_C8_amended.1 ["compare_mac_graviton.py"] (fun _ => true) [] [] (by decide)
  · exact claim_C8_amended.2.1 ["compare_mac_graviton.py", "a.csv", "b.csv"]
      (fun _ => false) [] [] (by decide) (by decide)
  · exact claim_C8_amended.2.2.1 ["parse_powermetrics.py"] (fun _ => true) [] (by decide)
  · exact claim_C8_amended.2.2.2.1
      ["analyze_composition.py", "comp.csv", "extra1", "extra2"] (fun _ => true)
      [⟨"A", "T", "naive", 100, 1/5, 100⟩, ⟨"A", "T", "neon", 200, 1/5, 100⟩,
       ⟨"A", "T", "neon_parallel", 400, 1/5, 100⟩]
      (by decide) (by decide) (by decide)
  · exact claim_C8_amended.2.2.2.2 ["analyze_composition.py", "missing.csv"]
      (fun _ => false) [] (by decide) (by decide)
